import Mathlib

/-!
Verification development for the format-negotiation core of jupytext
(`jupytext/formats.py`): the dialect registry, the compact format-specifier
parser and renderer, the format resolver, the dialect sniffer, the version
guard, and the metadata migrator.

Python strings are modelled as Lean `String` (lists of unicode code points,
compared and ordered exactly as Python compares `str`), Python `None`-able
values as `Option`, Python dictionaries of the metadata schema as structures
with `Option` fields (a `none` field is an absent key), and Python
exceptions as `Except PyError`.
-/

set_option linter.unusedVariables false

deriving instance DecidableEq for Except

/-! Part: Python string primitives -/

/-- Python `str.split(sep)` for a one-character separator, on code-point lists:
always returns at least one (possibly empty) piece. -/
def splitChar (c : Char) : List Char → List (List Char)
  | [] => [[]]
  | x :: xs =>
    let r := splitChar c xs
    if x = c then [] :: r
    else (x :: r.headD []) :: r.tail

/-- Python `str.split(sep, 1)` restricted to its effect on the first separator:
`none` when the separator does not occur, else the parts before and after
the first occurrence. -/
def splitFirstChar (c : Char) : List Char → Option (List Char × List Char)
  | [] => none
  | x :: xs =>
    if x = c then some ([], xs)
    else
      match splitFirstChar c xs with
      | some (a, b) => some (x :: a, b)
      | none => none

/-- Python `str.rfind(c)` returning an index only when the character occurs. -/
def rfindIdx (c : Char) : List Char → Option Nat
  | [] => none
  | x :: xs =>
    match rfindIdx c xs with
    | some i => some (i + 1)
    | none => if x = c then some 0 else none

/-- Python `sep.join(pieces)` on code-point lists. -/
def joinChar (c : Char) : List (List Char) → List Char
  | [] => []
  | [x] => x
  | x :: y :: xs => x ++ c :: joinChar c (y :: xs)

/-- Python `str.split(sep)` for strings. -/
def pySplit (c : Char) (s : String) : List String :=
  (splitChar c s.data).map String.mk

/-- Python `str.startswith(pre)`. -/
def pyStartsWith (s pre : String) : Bool :=
  pre.data.isPrefixOf s.data

/-- Python `str.endswith(suf)`. -/
def pyEndsWith (s suf : String) : Bool :=
  suf.data.isSuffixOf s.data

/-- Python `<=` on strings: lexicographic comparison of code points. -/
def lexLe : List Char → List Char → Bool
  | [], _ => true
  | _ :: _, [] => false
  | a :: as, b :: bs => if a = b then lexLe as bs else decide (a < b)

/-- Python `<=` on strings. -/
def pyStrLe (a b : String) : Bool := lexLe a.data b.data

/-- Truthiness of an optional string: `None` and `''` are falsy. -/
def pyOptFalsy : Option String → Bool
  | none => true
  | some s => s == ("")

/-- Python `a or b` for an optional string `a` with a string default `b`. -/
def py_or_default (a : Option String) (b : String) : String :=
  match a with
  | some s => if s == ("") then b else s
  | none => b

/-- Prepend a dot, as in `'.' + ext`. -/
def pyAddDot (s : String) : String := String.mk ('.' :: s.data)

/-- Python `os.path.splitext` on code-point lists (POSIX rules: split at the last
dot of the final path component, unless that component consists only of
leading dots up to that position). -/
def splitextData (l : List Char) : List Char × List Char :=
  let sepIdx : Int := match rfindIdx ('/') l with | some i => (i : Int) | none => -1
  let dotIdx : Int := match rfindIdx ('.') l with | some i => (i : Int) | none => -1
  if sepIdx < dotIdx then
    let start := (sepIdx + 1).toNat
    let d := dotIdx.toNat
    if ((l.drop start).take (d - start)).any (fun ch => ch ≠ '.') then
      (l.take d, l.drop d)
    else (l, [])
  else (l, [])

/-- Python `os.path.splitext` on strings. -/
def splitext (p : String) : String × String :=
  (String.mk (splitextData p.data).1, String.mk (splitextData p.data).2)

/-- The normalization `'.' + ext.split('.')[-1]`: the extension-normalization step of the
registry lookup, which strips any pre-extension. -/
def normalize_ext (ext : String) : String :=
  pyAddDot (String.mk ((splitChar ('.') ext.data).getLastD []))

/-- Python `dict.fromkeys`-style deduplication: keep the first occurrence of each
element, preserving order. -/
def dedupStrings (seen : List String) : List String → List String
  | [] => []
  | x :: xs =>
    if seen.contains x then dedupStrings seen xs
    else x :: dedupStrings (seen ++ [x]) xs

/-! Part: The error type

All exceptions raised by this core: `TypeError`s from the registry lookup
(`AmbiguousFormatName` / `UnknownExtension` in the spec's taxonomy), the
`TypeError` Python raises when a chained comparison reaches `None`, the
`AttributeError` Python raises when an attribute is read off `None`, the
`ValueError`s of the specifier parser (`InvalidFormatSpec`) and of the
version guard (`MergeUnsafe`), and the `JupytextFormatError`s of the
structured-record validator (`InvalidFormatOption`). -/

inductive PyError
  /-- A `TypeError` from the registry: a dialect name was supplied that is not
  associated to the extension; carries the candidate dialect names. -/
  | formatNotForExt (format_name : Option String) (ext : String) (candidates : List String)
  /-- A `TypeError` from the registry: no format is associated to the extension. -/
  | noFormatForExt (ext : String)
  /-- The `TypeError` from evaluating `a <= None` in a chained comparison. -/
  | typeErrorNoneCmp
  /-- The `AttributeError` from reading an attribute off `None`. -/
  | attrError
  /-- A `ValueError` from the compact-specifier parser: illegitimate extension. -/
  | valueErrorBadExt (ext : String)
  /-- A `ValueError` from the version guard: merging would be unsafe; carries
  the recorded and the current version number. -/
  | valueErrorMerge (version current : String)
  /-- A `JupytextFormatError`: unknown format option key. -/
  | unknownFormatOption (key : String)
  /-- A `JupytextFormatError`: a binary format option whose value is not a bool. -/
  | formatOptionNotBool (key : String)
  /-- A `JupytextFormatError`: a non-binary format option whose value is not a string. -/
  | formatOptionNotString (key : String)
  /-- A `JupytextFormatError`: the record has no extension key. -/
  | missingFormatExtension
  /-- A `JupytextFormatError`: the extension is not a notebook extension. -/
  | extNotNotebookExt (ext : String)
deriving DecidableEq

/-! Part: The dialect registry -/

/-- Opaque per-dialect reader capability; this core only selects it. -/
inductive CellReaderKind
  | markdownReader | rmarkdownReader | lightScriptReader | rScriptReader
  | doublePercentScriptReader | hydrogenReader | sphinxGalleryScriptReader
deriving DecidableEq

/-- Opaque per-dialect exporter capability; this core only selects it. -/
inductive CellExporterKind
  | markdownExporter | rmarkdownExporter | lightScriptExporter | rScriptExporter
  | doublePercentExporter | hydrogenExporter | sphinxGalleryExporter
deriving DecidableEq

/-- Description of a notebook format (a registry entry). -/
structure NotebookFormatDescription where
  format_name : String
  extension : String
  header_comment : String
  cell_reader : CellReaderKind
  cell_exporter : CellExporterKind
  current_version_number : String
  min_readable_version_number : Option String
deriving DecidableEq

/-- Modelled from the spec: the catalog of supported script extensions and
their comment prefixes (module `languages` is an external collaborator of
this core).  The spec parametrizes the script dialects by every supported
script extension, singles out `.py` as the generic script extension, and
treats `.r`/`.R` as script extensions read with the `R` language tag. -/
def SCRIPT_EXTENSION_LIST : List (String × String) :=
  [((".py"), ("#")), ((".r"), ("#")), ((".R"), ("#"))]

/-- The comment prefix of a script extension, when it is one. -/
def script_comment (ext : String) : Option String :=
  (SCRIPT_EXTENSION_LIST.find? (fun p => p.1 == ext)).map (fun p => p.2)

def markdown_description : NotebookFormatDescription :=
  { format_name := ("markdown"), extension := (".md"), header_comment := ("")
    cell_reader := CellReaderKind.markdownReader
    cell_exporter := CellExporterKind.markdownExporter
    current_version_number := ("1.0"), min_readable_version_number := none }

def rmarkdown_description : NotebookFormatDescription :=
  { format_name := ("rmarkdown"), extension := (".Rmd"), header_comment := ("")
    cell_reader := CellReaderKind.rmarkdownReader
    cell_exporter := CellExporterKind.rmarkdownExporter
    current_version_number := ("1.0"), min_readable_version_number := none }

def spin_description (ext : String) : NotebookFormatDescription :=
  { format_name := ("spin"), extension := ext, header_comment := ("#\x27")
    cell_reader := CellReaderKind.rScriptReader
    cell_exporter := CellExporterKind.rScriptExporter
    current_version_number := ("1.0"), min_readable_version_number := none }

def light_description (p : String × String) : NotebookFormatDescription :=
  { format_name := ("light"), extension := p.1, header_comment := p.2
    cell_reader := CellReaderKind.lightScriptReader
    cell_exporter := CellExporterKind.lightScriptExporter
    current_version_number := ("1.3"), min_readable_version_number := some ("1.1") }

def percent_description (p : String × String) : NotebookFormatDescription :=
  { format_name := ("percent"), extension := p.1, header_comment := p.2
    cell_reader := CellReaderKind.doublePercentScriptReader
    cell_exporter := CellExporterKind.doublePercentExporter
    current_version_number := ("1.2"), min_readable_version_number := some ("1.1") }

def hydrogen_description (p : String × String) : NotebookFormatDescription :=
  { format_name := ("hydrogen"), extension := p.1, header_comment := p.2
    cell_reader := CellReaderKind.hydrogenReader
    cell_exporter := CellExporterKind.hydrogenExporter
    current_version_number := ("1.2"), min_readable_version_number := some ("1.1") }

def sphinx_description : NotebookFormatDescription :=
  { format_name := ("sphinx"), extension := (".py"), header_comment := ("#")
    cell_reader := CellReaderKind.sphinxGalleryScriptReader
    cell_exporter := CellExporterKind.sphinxGalleryExporter
    current_version_number := ("1.1"), min_readable_version_number := none }

/-- The registry: markup dialects, then `spin` for `.r`/`.R`, then the
`light`, `percent` and `hydrogen` dialects for every script extension, then
`sphinx` for `.py` — in the order the source concatenates them. -/
def JUPYTEXT_FORMATS : List NotebookFormatDescription :=
  [markdown_description, rmarkdown_description] ++
    ([(".r"), (".R")].map spin_description) ++
    (SCRIPT_EXTENSION_LIST.map light_description) ++
    (SCRIPT_EXTENSION_LIST.map percent_description) ++
    (SCRIPT_EXTENSION_LIST.map hydrogen_description) ++
    [sphinx_description]

/-- The list `['.ipynb']` followed by every registered extension, deduplicated
keeping first occurrences. -/
def NOTEBOOK_EXTENSIONS : List String :=
  dedupStrings [] ([(".ipynb")] ++ JUPYTEXT_FORMATS.map (fun fmt => fmt.extension))

def EXTENSION_PREFIXES : List String :=
  [(".lgt"), (".spx"), (".pct"), (".hyd"), (".nb")]

/-- All dialect names registered for an extension, in registry order. -/
def dialect_names (ext : String) : List String :=
  (JUPYTEXT_FORMATS.filter (fun fmt => fmt.extension == ext)).map
    (fun fmt => fmt.format_name)

/-- The registry scan of `get_format_implementation`: walk the registry in
order; on an extension match, return the descriptor when the requested name
matches or no (truthy) name was requested, else record the candidate name
and continue; when the scan ends, raise the candidates error if any
candidate was seen, else the unknown-extension error. -/
def get_format_implementation_go (ext : String) (format_name : Option String) :
    List NotebookFormatDescription → List String →
      Except PyError (Option NotebookFormatDescription)
  | [], acc =>
    if acc ≠ [] then Except.error (PyError.formatNotForExt format_name ext acc)
    else Except.error (PyError.noFormatForExt ext)
  | fmt :: rest, acc =>
    if fmt.extension == ext then
      if format_name == some fmt.format_name || pyOptFalsy format_name then
        Except.ok (some fmt)
      else get_format_implementation_go ext format_name rest (acc ++ [fmt.format_name])
    else get_format_implementation_go ext format_name rest acc

/-- The lookup `get_format_implementation(ext, format_name)`: normalize the extension
(strip any pre-extension), return `None` for the `.ipynb` container, else
scan the registry. -/
def get_format_implementation (ext : String) (format_name : Option String) :
    Except PyError (Option NotebookFormatDescription) :=
  let ext := normalize_ext ext
  if pyEndsWith ext (".ipynb") then Except.ok none
  else get_format_implementation_go ext format_name JUPYTEXT_FORMATS []

/-! Part: The metadata model

Typed view of the notebook-metadata mapping: each `Option` field stands for
the presence or absence of the corresponding key; everything the migrator,
the resolver, the sniffer and the version guard read or write is covered. -/

/-- One entries list of a structured metadata filter: either the literal
string `'all'` or a list of names. -/
inductive FilterEntries
  | allKeys
  | names (l : List String)
deriving DecidableEq

/-- A metadata-filter value: either already a compact string, or the
deprecated structured `additional`/`excluded` record. -/
inductive FilterValue
  | compact (s : String)
  | record (additional excluded : Option FilterEntries)
deriving DecidableEq

/-- The deprecated nested metadata-filter block with its `notebook` and
`cells` sub-filters. -/
structure MetaFilter where
  notebook : Option FilterValue
  cells : Option FilterValue
deriving DecidableEq

/-- The text-representation block. -/
structure TextRep where
  extension : Option String
  format_name : Option String
  format_version : Option String
deriving DecidableEq

/-- The dialect-namespaced metadata block. -/
structure JupytextMeta where
  formats : Option String
  text_representation : Option TextRep
  main_language : Option String
  encoding : Option String
  executable : Option String
  metadata_filter : Option MetaFilter
  notebook_metadata_filter : Option FilterValue
  cell_metadata_filter : Option FilterValue
deriving DecidableEq

def JupytextMeta.empty : JupytextMeta :=
  ⟨none, none, none, none, none, none, none, none⟩

/-- The language-info block (only its `file_extension` key is read). -/
structure LangInfo where
  file_extension : Option String
deriving DecidableEq

/-- A notebook's metadata mapping. -/
structure Metadata where
  nbrmd_formats : Option String
  nbrmd_format_version : Option String
  jupytext_formats : Option String
  jupytext_format_version : Option String
  main_language : Option String
  encoding : Option String
  executable : Option String
  language_info : Option LangInfo
  jupytext : Option JupytextMeta
deriving DecidableEq

def Metadata.empty : Metadata :=
  ⟨none, none, none, none, none, none, none, none, none⟩

/-- Python truthiness of the metadata dictionary: it has at least one key. -/
def metadata_nonempty (m : Metadata) : Bool := decide (m ≠ Metadata.empty)

/-- Python truthiness of a `text_representation` dictionary. -/
def text_rep_nonempty (t : TextRep) : Bool :=
  t.extension.isSome || t.format_name.isSome || t.format_version.isSome

/-! Part: The specifier parser and renderer -/

/-- The legitimate extensions of the compact-specifier grammar. -/
def legitimate_extensions : List String := NOTEBOOK_EXTENSIONS ++ [(".auto")]

/-- The acceptance condition of `parse_one_format` on a dot-normalized
extension: a legitimate extension, or a two-part extension whose trailing
part is legitimate and whose leading part is a whitelisted short prefix
tag. -/
def extension_is_legit (ext : String) : Bool :=
  decide (ext ∈ legitimate_extensions) ||
    (match rfindIdx ('.') ext.data with
     | some i =>
       decide (0 < i) && decide ((splitext ext).2 ∈ legitimate_extensions) &&
         decide ((splitext ext).1 ∈ EXTENSION_PREFIXES)
     | none => false)

/-- The function `parse_one_format`: split `"py:percent"` into `(".py", some "percent")`;
the extension gains a leading dot when missing and must be legitimate. -/
def parse_one_format (s : String) : Except PyError (String × Option String) :=
  let p : String × Option String :=
    match splitFirstChar (':') s.data with
    | some (a, b) => (String.mk a, some (String.mk b))
    | none => (s, none)
  let ext := if pyStartsWith p.1 (".") then p.1 else pyAddDot p.1
  if extension_is_legit ext then Except.ok (ext, p.2)
  else Except.error (PyError.valueErrorBadExt ext)

/-- Parse each compact specifier of a list in order; the first offending
specifier raises (the exception-propagation of a Python list
comprehension). -/
def parse_formats_list : List String → Except PyError (List (String × Option String))
  | [] => Except.ok []
  | s :: rest =>
    match parse_one_format s with
    | Except.error e => Except.error e
    | Except.ok p =>
      match parse_formats_list rest with
      | Except.error e => Except.error e
      | Except.ok l => Except.ok (p :: l)

/-- The function `parse_formats`: split a comma-joined compact string (or `None`) into a
formats list; empty input yields the empty list. -/
def parse_formats (formats : Option String) :
    Except PyError (List (String × Option String)) :=
  match formats with
  | none => Except.ok []
  | some s =>
    if s == ("") then Except.ok []
    else parse_formats_list (pySplit (',') s)

/-- The function `one_format_as_string`: render `(".py", some "percent")` as
`"py:percent"`; the dialect suffix is omitted when the name is falsy or a
markup dialect name. -/
def one_format_as_string (ext : String) (format_name : Option String) : String :=
  let e := if pyStartsWith ext (".") then String.mk (ext.data.drop 1) else ext
  match format_name with
  | some fn =>
    if fn ≠ ("") ∧ fn ∉ [("markdown"), ("rmarkdown")] then
      String.mk (e.data ++ ':' :: fn.data)
    else e
  | none => e

/-- The function `formats_as_string`: comma-join the rendering of every entry. -/
def formats_as_string (formats : List (String × Option String)) : String :=
  String.mk (joinChar (',')
    (formats.map (fun p => (one_format_as_string p.1 p.2).data)))

/-- The loop body of `update_formats`, with its `found_ext` flag: keep
entries of other extensions, replace the first entry of the given extension,
drop later entries of that extension. -/
def update_formats_go (ext : String) (format_name : Option String) :
    List (String × Option String) → Bool → List (String × Option String)
  | [], _ => []
  | (org_ext, org_format_name) :: rest, found =>
    if org_ext ≠ ext then
      (org_ext, org_format_name) :: update_formats_go ext format_name rest found
    else if found = false then
      (ext, format_name) :: update_formats_go ext format_name rest true
    else update_formats_go ext format_name rest found

/-- The function `update_formats`: update the format list with the given format name. -/
def update_formats (formats : List (String × Option String)) (ext : String)
    (format_name : Option String) : List (String × Option String) :=
  update_formats_go ext format_name formats false

/-! Part: The format resolver -/

/-- The function `auto_ext_from_metadata`: the script extension implied by the kernel
information, with the lower-case `r` extension upcased. -/
def auto_ext_from_metadata (metadata : Metadata) : Option String :=
  let auto_ext : Option String :=
    match metadata.language_info with
    | some li => li.file_extension
    | none => none
  if auto_ext == some (".r") then some (".R") else auto_ext

/-- The scan of the declared formats list inside `format_name_for_ext`:
`some r` when the loop returned `r` (itself an optional dialect name),
`none` when the loop fell through. -/
def find_format_in_list (ext : String) (auto_ext : Option String)
    (explicit_default : Bool) :
    List (String × Option String) → Option (Option String)
  | [] => none
  | (fmt_ext, ext_format_name) :: rest =>
    if pyEndsWith fmt_ext ext ||
        (pyEndsWith fmt_ext (".auto") && !pyOptFalsy auto_ext &&
          pyEndsWith ext (auto_ext.getD (""))) then
      if !explicit_default || !pyOptFalsy ext_format_name then some ext_format_name
      else find_format_in_list ext auto_ext explicit_default rest
    else find_format_in_list ext auto_ext explicit_default rest

/-- The resolver `format_name_for_ext(metadata, ext, cm_default_formats, explicit_default)`:
the dialect name for that extension — the document's own text-representation
block wins, else the first usable entry of the declared (or default) formats
list, else `None` for a non-explicit default or a markup extension, else
the registry default. -/
def format_name_for_ext (metadata : Metadata) (ext : String)
    (cm_default_formats : Option String) (explicit_default : Bool) :
    Except PyError (Option String) :=
  let text_repr : Option TextRep :=
    match metadata.jupytext with
    | some j => j.text_representation
    | none => none
  let self_declared : Option String :=
    match text_repr with
    | some t =>
      if text_rep_nonempty t && t.extension == some ext && !pyOptFalsy t.format_name
      then t.format_name
      else none
    | none => none
  match self_declared with
  | some fn => Except.ok (some fn)
  | none =>
    let auto_ext := auto_ext_from_metadata metadata
    let formats_str : Option String :=
      match (match metadata.jupytext with | some j => j.formats | none => none) with
      | some s => if s == ("") then cm_default_formats else some s
      | none => cm_default_formats
    match parse_formats formats_str with
    | Except.error e => Except.error e
    | Except.ok fl =>
      match find_format_in_list ext auto_ext explicit_default fl with
      | some r => Except.ok r
      | none =>
        if !explicit_default || decide (ext ∈ [(".Rmd"), (".md")]) then Except.ok none
        else
          match get_format_implementation ext none with
          | Except.ok (some fmt) => Except.ok (some fmt.format_name)
          | Except.ok none => Except.error PyError.attrError
          | Except.error e => Except.error e

/-- The function `update_jupytext_formats_metadata`: parse the declared formats list,
update it with the dialect that produced the file, and write it back when
the result is non-empty. -/
def update_jupytext_formats_metadata (metadata : Metadata) (ext : String)
    (format_name : Option String) : Except PyError Metadata :=
  let formats_str : Option String :=
    match (match metadata.jupytext with | some j => j.formats | none => none) with
    | some s => some s
    | none => some ("")
  match parse_formats formats_str with
  | Except.error e => Except.error e
  | Except.ok fl =>
    let fl := update_formats fl ext format_name
    if fl ≠ [] then
      let j := match metadata.jupytext with | some j => j | none => JupytextMeta.empty
      Except.ok { metadata with
        jupytext := some { j with formats := some (formats_as_string fl) } }
    else Except.ok metadata

/-! Part: The version guard -/

/-- The recorded format version:
`metadata.get('jupytext', {}).get('text_representation', {}).get('format_version')`. -/
def recorded_format_version (metadata : Metadata) : Option String :=
  match metadata.jupytext with
  | none => none
  | some j =>
    match j.text_representation with
    | none => none
    | some t => t.format_version

/-- The guard `check_file_version(notebook, source_path, outputs_path)`: raise if the
file version in the source file would override the outputs.  The `guard`
flag models the process-wide switch `insert_or_test_version_number()` (an
external collaborator); everything else follows the source: no-op when
guarding is disabled or the source extension is the `.ipynb` container; a
missing version on an otherwise non-empty metadata mapping is replaced by
the current version; the recorded version is accepted when it equals the
current version or lies between the minimum readable and the current
version in Python string comparison; a `None` version reaching the chained
comparison raises `TypeError`; identical source and output paths are
accepted; everything else raises the merge-unsafe `ValueError`. -/
def check_file_version (guard : Bool) (notebook_metadata : Metadata)
    (source_path outputs_path : String) : Except PyError Unit :=
  if guard = false then Except.ok ()
  else
    let ext := (splitext source_path).2
    if pyEndsWith ext (".ipynb") then Except.ok ()
    else
      let version := recorded_format_version notebook_metadata
      match format_name_for_ext notebook_metadata ext none true with
      | Except.error e => Except.error e
      | Except.ok format_name =>
        match get_format_implementation ext format_name with
        | Except.error e => Except.error e
        | Except.ok none => Except.error PyError.attrError
        | Except.ok (some fmt) =>
          let current := fmt.current_version_number
          let version :=
            if metadata_nonempty notebook_metadata && pyOptFalsy version then
              some current
            else version
          if version == some fmt.current_version_number then Except.ok ()
          else
            match version with
            | none => Except.error PyError.typeErrorNoneCmp
            | some v =>
              if pyStrLe (py_or_default fmt.min_readable_version_number current) v &&
                  pyStrLe v current then Except.ok ()
              else if source_path == outputs_path then Except.ok ()
              else Except.error (PyError.valueErrorMerge v current)

/-! Part: The dialect sniffer -/

/-- The twenty-`#` section-break marker of Sphinx-gallery scripts. -/
def twenty_hash : String := ("####################")

/-- Python's `\s` on the ASCII range: the whitespace class of the
double-percent regex. -/
def pyIsSpaceChar (c : Char) : Bool :=
  c ∈ [' ', '\t', '\n', '\x0b', '\x0c', '\r']

/-- Tests that `pre` is a prefix and the next character exists and is whitespace:
the regex `^pre\s`. -/
def starts_then_space (pre l : List Char) : Bool :=
  pre.isPrefixOf l &&
    (match l.drop pre.length with
     | c :: _ => pyIsSpaceChar c
     | [] => false)

/-- The regex `^comment( %%|%%)$`: the whole line is the comment prefix
followed by `%%` or ` %%`. -/
def double_percent_line (comment line : String) : Bool :=
  line == String.mk (comment.data ++ ['%', '%']) ||
    line == String.mk (comment.data ++ [' ', '%', '%'])

/-- The regex `^comment( %%|%%)\s`: as above but followed by a whitespace
character (an escaped-magic guard). -/
def double_percent_space_line (comment line : String) : Bool :=
  starts_then_space (comment.data ++ ['%', '%']) line.data ||
    starts_then_space (comment.data ++ [' ', '%', '%']) line.data

/-- The tail of the legacy `In[...]` marker: characters of `[0-9 ]` up to a
closing bracket. -/
def in_bracket_tail : List Char → Bool
  | ']' :: _ => true
  | c :: rest => if c.isDigit || c == ' ' then in_bracket_tail rest else false
  | [] => false

/-- The regex `^comment( <codecell>| In\[[0-9 ]*\]:?)`: a legacy
nbconvert-script cell marker. -/
def nbconvert_line (comment line : String) : Bool :=
  (comment.data ++ (" <codecell>").data).isPrefixOf line.data ||
    ((comment.data ++ (" In[").data).isPrefixOf line.data &&
      in_bracket_tail (line.data.drop (comment.data ++ (" In[").data).length))

/-- The regex `^(%|%%|%%%)[a-zA-Z]`: an active magic command line. -/
def magic_line (line : String) : Bool :=
  match line.data with
  | '%' :: '%' :: '%' :: c :: _ => c.isAlpha
  | '%' :: '%' :: c :: _ => c.isAlpha
  | '%' :: c :: _ => c.isAlpha
  | _ => false

/-- A line counted by the double-percent counter: an exact double-percent
cell marker, a double-percent marker followed by whitespace, or a legacy
nbconvert marker. -/
def double_percent_marker (comment line : String) : Bool :=
  double_percent_line comment line || double_percent_space_line comment line ||
    nbconvert_line comment line

/-- A line counted by the section-break counter: twenty hashes, counted only
for the `.py` extension. -/
def twenty_hash_marker (ext line : String) : Bool :=
  pyStartsWith line twenty_hash && ext == (".py")

/-- The three counters of the sniffer's scan. -/
structure SnifferTally where
  double_percent_count : Nat
  magic_command_count : Nat
  twenty_hash_count : Nat
deriving DecidableEq

/-- The sniffer's line scan.  Each line is paired with the verdict of the
quote tracker (`StringParser`, an external collaborator: `true` means the
line lies inside an open string literal and is skipped). -/
def guess_format_scan (comment ext : String) :
    List (String × Bool) → SnifferTally → SnifferTally
  | [], t => t
  | (line, quoted) :: rest, t =>
    if quoted then guess_format_scan comment ext rest t
    else
      let t := if double_percent_marker comment line then
        { t with double_percent_count := t.double_percent_count + 1 } else t
      let t := if magic_line line then
        { t with magic_command_count := t.magic_command_count + 1 } else t
      let t := if twenty_hash_marker ext line then
        { t with twenty_hash_count := t.twenty_hash_count + 1 } else t
      guess_format_scan comment ext rest t

/-- The metadata condition under which `guess_format` defers to the
resolver instead of sniffing: the `jupytext` block carries a key outside
`{encoding, executable, main_language}`, or any other top-level key is
present. -/
def metadata_forces_format (metadata : Metadata) : Bool :=
  (match metadata.jupytext with
   | some j =>
     j.formats.isSome || j.text_representation.isSome || j.metadata_filter.isSome ||
       j.notebook_metadata_filter.isSome || j.cell_metadata_filter.isSome
   | none => false) ||
    (metadata.nbrmd_formats.isSome || metadata.nbrmd_format_version.isSome ||
      metadata.jupytext_formats.isSome || metadata.jupytext_format_version.isSome ||
      metadata.main_language.isSome || metadata.encoding.isSome ||
      metadata.executable.isSome || metadata.language_info.isSome)

/-- The registry default for an extension:
`get_format_implementation(ext).format_name`. -/
def default_format_name (ext : String) : Except PyError (Option String) :=
  match get_format_implementation ext none with
  | Except.ok (some fmt) => Except.ok (some fmt.format_name)
  | Except.ok none => Except.error PyError.attrError
  | Except.error e => Except.error e

/-- The sniffer `guess_format(text, ext)`: guess the format of the file, given its
extension and content.  The header metadata extracted by the collaborating
header reader is passed as `metadata`, and the raw lines are paired with
the quote tracker's verdicts (both external collaborators of this core);
the decision logic follows the source: explicit metadata defers to the
resolver; for script extensions, double-percent markers decide `hydrogen`
(with magics) or `percent`, twenty-hash section breaks decide `sphinx`,
and otherwise the registry default wins. -/
def guess_format (metadata : Metadata) (lines : List (String × Bool))
    (ext : String) : Except PyError (Option String) :=
  if metadata_forces_format metadata then format_name_for_ext metadata ext none true
  else
    match script_comment ext with
    | some comment =>
      let t := guess_format_scan comment ext lines ⟨0, 0, 0⟩
      if 1 ≤ t.double_percent_count then
        if t.magic_command_count ≠ 0 then Except.ok (some ("hydrogen"))
        else Except.ok (some ("percent"))
      else if 2 ≤ t.twenty_hash_count then Except.ok (some ("sphinx"))
      else default_format_name ext
    | none => default_format_name ext

/-! Part: The metadata migrator -/

/-- Flatten one structured metadata filter to the compact grammar:
comma-joined names, excluded names prefixed with a minus, the `all`
sentinel rendered literally (`all` from `additional`, `-all` from
`excluded`); absent sub-keys default to empty lists. -/
def flatten_filter_value : Option FilterValue → Option FilterValue
  | some (FilterValue.record additional excluded) =>
    let entries : List String :=
      match additional.getD (FilterEntries.names []) with
      | FilterEntries.allKeys => [("all")]
      | FilterEntries.names l => l
    let entries : List String :=
      match excluded.getD (FilterEntries.names []) with
      | FilterEntries.allKeys => entries ++ [("-all")]
      | FilterEntries.names l => entries ++ l.map (fun e => String.mk ('-' :: e.data))
    some (FilterValue.compact (String.mk (joinChar (',') (entries.map String.data))))
  | v => v

/-- The rebuilt `jupytext` block of `rearrange_jupytext_metadata`: legacy
flat keys folded in (`jupytext_formats` → `formats`,
`jupytext_format_version` → a fresh `text_representation` holding only the
version, `main_language`/`encoding`/`executable` → same-named fields), the
deprecated nested `metadata_filter` migrated to the two flat filter fields,
and structured filter values flattened to the compact grammar. -/
def migrated_block (metadata : Metadata) : JupytextMeta :=
  let jupytext_formats_v : Option String :=
    match metadata.nbrmd_formats with
    | some v => some v
    | none => metadata.jupytext_formats
  let jupytext_version_v : Option String :=
    match metadata.nbrmd_format_version with
    | some v => some v
    | none => metadata.jupytext_format_version
  let jm := match metadata.jupytext with | some j => j | none => JupytextMeta.empty
  let jm := match jupytext_formats_v with
    | some v => { jm with formats := some v }
    | none => jm
  let jm := match jupytext_version_v with
    | some v => { jm with text_representation := some ⟨none, none, some v⟩ }
    | none => jm
  let jm := match metadata.main_language with
    | some v => { jm with main_language := some v }
    | none => jm
  let jm := match metadata.encoding with
    | some v => { jm with encoding := some v }
    | none => jm
  let jm := match metadata.executable with
    | some v => { jm with executable := some v }
    | none => jm
  let filters := match jm.metadata_filter with | some f => f | none => ⟨none, none⟩
  let jm := { jm with metadata_filter := none }
  let jm := match filters.notebook with
    | some v => { jm with notebook_metadata_filter := some v }
    | none => jm
  let jm := match filters.cells with
    | some v => { jm with cell_metadata_filter := some v }
    | none => jm
  { jm with
    notebook_metadata_filter := flatten_filter_value jm.notebook_metadata_filter,
    cell_metadata_filter := flatten_filter_value jm.cell_metadata_filter }

/-- The migrator `rearrange_jupytext_metadata`: convert legacy metadata shapes
(`nbrmd_*` keys, flat `jupytext_*` keys, nested `metadata_filter`,
structured filter records) into the current nested schema; the rebuilt
block is re-attached only when non-empty. -/
def rearrange_jupytext_metadata (metadata : Metadata) : Metadata :=
  let jm := migrated_block metadata
  { nbrmd_formats := none, nbrmd_format_version := none,
    jupytext_formats := none, jupytext_format_version := none,
    main_language := none, encoding := none, executable := none,
    language_info := metadata.language_info,
    jupytext := if jm = JupytextMeta.empty then none else some jm }

/-! Part: The structured-record validator -/

/-- A Python value inside a structured format record. -/
inductive PyVal
  | vstr (s : String)
  | vbool (b : Bool)
  | vint (n : Int)
deriving DecidableEq

/-- A structured format record: a dictionary as an ordered key/value list. -/
abbrev FormatRecord := List (String × PyVal)

/-- One element of a `jupytext.formats` specification: a compact string or
an already-structured record. -/
inductive FmtEntry
  | estr (s : String)
  | edict (d : FormatRecord)
deriving DecidableEq

/-- The input of `long_form_multiple_formats`: a comma-joined compact
string, or a list of compact strings and structured records. -/
inductive FormatsInput
  | fstring (s : String)
  | flist (l : List FmtEntry)
deriving DecidableEq

def _VALID_FORMAT_OPTIONS : List String :=
  [("extension"), ("format_name"), ("suffix"), ("prefix"), ("comment_magics"),
    ("split_at_heading"), ("notebook_metadata_filter"), ("cell_metadata_filter")]

def _BINARY_FORMAT_OPTIONS : List String :=
  [("comment_magics"), ("split_at_heading")]

/-- The function `long_form_one_format`: parse `'sfx.py:percent'` into the record
`{suffix: 'sfx', extension: '.py', format_name: 'percent'}`; an
already-structured record passes through unchanged. -/
def long_form_one_format (f : FmtEntry) : FormatRecord :=
  match f with
  | FmtEntry.edict d => d
  | FmtEntry.estr s =>
    let p : String × FormatRecord :=
      match splitFirstChar (':') s.data with
      | some (a, b) => (String.mk a, [(("format_name"), PyVal.vstr (String.mk b))])
      | none => (s, [])
    let q : FormatRecord × String :=
      match rfindIdx ('.') p.1.data with
      | some i =>
        if 0 < i then
          (p.2 ++ [(("suffix"), PyVal.vstr (splitext p.1).1)], (splitext p.1).2)
        else (p.2, p.1)
      | none => (p.2, p.1)
    let ext := if pyStartsWith q.2 (".") then q.2 else pyAddDot q.2
    q.1 ++ [(("extension"), PyVal.vstr ext)]

/-- Dictionary lookup in a format record. -/
def record_lookup (d : FormatRecord) (k : String) : Option PyVal :=
  (d.find? (fun p => p.1 == k)).map (fun p => p.2)

/-- The per-key loop of `validate_one_format`: every key must be a known
option, binary options must hold bools, all other options must hold
strings; the first offending key raises. -/
def validate_format_keys : FormatRecord → Except PyError Unit
  | [] => Except.ok ()
  | (k, v) :: rest =>
    if decide (k ∉ _VALID_FORMAT_OPTIONS) then
      Except.error (PyError.unknownFormatOption k)
    else if decide (k ∈ _BINARY_FORMAT_OPTIONS) then
      match v with
      | PyVal.vbool _ => validate_format_keys rest
      | _ => Except.error (PyError.formatOptionNotBool k)
    else
      match v with
      | PyVal.vstr _ => validate_format_keys rest
      | _ => Except.error (PyError.formatOptionNotString k)

/-- The function `validate_one_format`: validate the keys and values, then require an
extension key holding a notebook extension (or `.auto`). -/
def validate_one_format (d : FormatRecord) : Except PyError Unit :=
  match validate_format_keys d with
  | Except.error e => Except.error e
  | Except.ok _ =>
    match record_lookup d ("extension") with
    | none => Except.error PyError.missingFormatExtension
    | some v =>
      match v with
      | PyVal.vstr ext =>
        if decide (ext ∈ legitimate_extensions) then Except.ok ()
        else Except.error (PyError.extNotNotebookExt ext)
      | _ => Except.error (PyError.extNotNotebookExt (""))

/-- Validate every record in order; the first offending record raises. -/
def validate_all_formats : List FormatRecord → Except PyError Unit
  | [] => Except.ok ()
  | d :: rest =>
    match validate_one_format d with
    | Except.error e => Except.error e
    | Except.ok _ => validate_all_formats rest

/-- The function `long_form_multiple_formats`: convert a concise formats specification
to a list of structured records; falsy input yields the empty list, a
compact string is split on commas dropping empty pieces, every element is
brought to long form, and every resulting record is validated before the
list is returned — all-or-nothing. -/
def long_form_multiple_formats (input : FormatsInput) :
    Except PyError (List FormatRecord) :=
  let entries : List FmtEntry :=
    match input with
    | FormatsInput.fstring s =>
      ((pySplit (',') s).filter (fun f => f ≠ (""))).map FmtEntry.estr
    | FormatsInput.flist l => l
  let falsy : Bool :=
    match input with
    | FormatsInput.fstring s => s == ("")
    | FormatsInput.flist l => l.isEmpty
  if falsy then Except.ok []
  else
    let records := entries.map long_form_one_format
    match validate_all_formats records with
    | Except.error e => Except.error e
    | Except.ok _ => Except.ok records

/-! Part: Spec-side definitions

These follow the spec's words (not the source) and exist to be compared
against the source-derived functions above. -/

/-- Follows the spec's words: the numeric value of a non-empty all-digit
component of a version string. -/
def decimal_value (l : List Char) : Option Nat :=
  if l ≠ [] ∧ l.all (fun c => c.isDigit) then
    some (l.foldl (fun a c => a * 10 + (c.toNat - ('0').toNat)) 0)
  else none

/-- Follows the spec's words: a version string denotes `major.minor`.  Parse
it into its two numeric components. -/
def version_as_pair (s : String) : Option (Nat × Nat) :=
  match pySplit ('.') s with
  | [a, b] =>
    match decimal_value a.data, decimal_value b.data with
    | some x, some y => some (x, y)
    | _, _ => none
  | _ => none

/-- Follows the spec's words: numeric per-component comparison of
`major.minor` version strings (not lexicographic). -/
def numeric_version_le (a b : String) : Bool :=
  match version_as_pair a, version_as_pair b with
  | some x, some y => decide (x.1 < y.1 ∨ (x.1 = y.1 ∧ x.2 ≤ y.2))
  | _, _ => false

/-! Part: example data and auxiliary predicates used by the statements -/

/-- A notebook metadata mapping recording only a format version. -/
def nb_with_version (v : String) : Metadata :=
  { Metadata.empty with
    jupytext := some { JupytextMeta.empty with
      text_representation := some ⟨none, none, some v⟩ } }

/-- A metadata mapping whose text-representation block self-declares the
`light` dialect for `.py` while its formats list declares `percent`. -/
def self_declared_metadata : Metadata :=
  { Metadata.empty with
    jupytext := some { JupytextMeta.empty with
      text_representation := some ⟨some (".py"), some ("light"), none⟩,
      formats := some ("py:percent") } }

/-- Shape facts of a dot-normalized extension string that the
compact-specifier grammar relies on: a leading dot, a non-dot second
character, and no comma or colon anywhere. -/
def ext_shape_ok (e : String) : Bool :=
  match e.data with
  | c0 :: c1 :: _ =>
    (c0 == '.') && !(c1 == '.') && !(decide (',' ∈ e.data)) && !(decide (':' ∈ e.data))
  | _ => false

/-- Every dialect name of the registry, in registry order. -/
def all_format_names : List String :=
  JUPYTEXT_FORMATS.map (fun fmt => fmt.format_name)

/-- A valid formats-list entry: a legitimate (possibly prefixed) extension,
and a dialect name that, when present, is registered for the entry's
normalized extension. -/
def valid_entry (e : String) (n : Option String) : Bool :=
  extension_is_legit e &&
    (match n with
     | none => true
     | some s => decide (s ∈ dialect_names (normalize_ext e)))

/-- A format-record key/value pair that the validator must reject: an
unknown key, a binary option holding a non-bool, or any other known option
holding a non-string. -/
def bad_option_pair (p : String × PyVal) : Bool :=
  if decide (p.1 ∈ _VALID_FORMAT_OPTIONS) then
    if decide (p.1 ∈ _BINARY_FORMAT_OPTIONS) then
      match p.2 with
      | PyVal.vbool _ => false
      | _ => true
    else
      match p.2 with
      | PyVal.vstr _ => false
      | _ => true
  else true

/-! Part: helper lemmas about the string primitives -/

theorem string_mk_data (s : String) : String.mk s.data = s := rfl

theorem splitChar_cons (c x : Char) (xs : List Char) :
    splitChar c (x :: xs) =
      if x = c then [] :: splitChar c xs
      else (x :: (splitChar c xs).headD []) :: (splitChar c xs).tail := rfl

theorem splitChar_ne_nil (c : Char) (l : List Char) : splitChar c l ≠ [] := by
  cases l with
  | nil => simp [splitChar]
  | cons x xs =>
    rw [splitChar_cons]
    by_cases h : x = c <;> simp [h]

theorem splitChar_not_mem (c : Char) (l : List Char) (h : c ∉ l) :
    splitChar c l = [l] := by
  induction l with
  | nil => rfl
  | cons x xs ih =>
    have hx : x ≠ c := fun he => h (he ▸ List.mem_cons_self x xs)
    have hxs : c ∉ xs := fun hm => h (List.mem_cons_of_mem x hm)
    rw [splitChar_cons]
    simp [hx, ih hxs]

theorem splitChar_append_not_mem (c : Char) (x l : List Char) (h : c ∉ x) :
    splitChar c (x ++ c :: l) = x :: splitChar c l := by
  induction x with
  | nil => simp [splitChar_cons]
  | cons a as ih =>
    have ha : a ≠ c := fun he => h (he ▸ List.mem_cons_self a as)
    have has : c ∉ as := fun hm => h (List.mem_cons_of_mem a hm)
    rw [List.cons_append, splitChar_cons, if_neg ha, ih has]
    simp

theorem splitChar_two_le_length (c : Char) (l : List Char) (h : c ∈ l) :
    2 ≤ (splitChar c l).length := by
  induction l with
  | nil => cases h
  | cons x xs ih =>
    rw [splitChar_cons]
    by_cases hx : x = c
    · have h1 : 0 < (splitChar c xs).length :=
        List.length_pos.mpr (splitChar_ne_nil c xs)
      rw [if_pos hx]
      simp only [List.length_cons]
      omega
    · have hxs : c ∈ xs := by
        cases List.mem_cons.mp h with
        | inl he => exact absurd he.symm hx
        | inr hm => exact hm
      have h2 := ih hxs
      have h1 : 0 < (splitChar c xs).length :=
        List.length_pos.mpr (splitChar_ne_nil c xs)
      rw [if_neg hx]
      simp only [List.length_cons, List.length_tail]
      omega

theorem getLastD_cons_irrel {α : Type} (b : α) (t : List α) (d₁ d₂ : α) :
    (b :: t).getLastD d₁ = (b :: t).getLastD d₂ := by
  simp only [List.getLastD_cons]

theorem getLastD_tail_of_two_le {α : Type} (r : List α) (h : 2 ≤ r.length)
    (d₁ : α) (d₂ : α) : r.tail.getLastD d₁ = r.getLastD d₂ := by
  match r with
  | [] => simp at h
  | [a] => simp at h
  | a :: b :: t =>
    show (b :: t).getLastD d₁ = (a :: b :: t).getLastD d₂
    simp only [List.getLastD_cons]

theorem getLastD_splitChar_append (c : Char) (ys : List Char) (hys : c ∉ ys)
    (t : List Char) : (splitChar c (t ++ c :: ys)).getLastD [] = ys := by
  induction t with
  | nil =>
    rw [List.nil_append, splitChar_cons, if_pos rfl, splitChar_not_mem c ys hys]
    simp only [List.getLastD_cons, List.getLastD_nil]
  | cons x xs ih =>
    rw [List.cons_append, splitChar_cons]
    by_cases hx : x = c
    · rw [if_pos hx]
      simpa only [List.getLastD_cons] using ih
    · rw [if_neg hx]
      have hmem : c ∈ xs ++ c :: ys := List.mem_append_right xs (List.mem_cons_self c ys)
      have h2 := splitChar_two_le_length c (xs ++ c :: ys) hmem
      rw [List.getLastD_cons]
      rw [getLastD_tail_of_two_le (splitChar c (xs ++ c :: ys)) h2 _ ([])]
      exact ih

theorem splitFirstChar_not_mem (c : Char) (l : List Char) (h : c ∉ l) :
    splitFirstChar c l = none := by
  induction l with
  | nil => rfl
  | cons x xs ih =>
    have hx : x ≠ c := fun he => h (he ▸ List.mem_cons_self x xs)
    have hxs : c ∉ xs := fun hm => h (List.mem_cons_of_mem x hm)
    unfold splitFirstChar
    simp [hx, ih hxs]

theorem splitFirstChar_append (c : Char) (x y : List Char) (h : c ∉ x) :
    splitFirstChar c (x ++ c :: y) = some (x, y) := by
  induction x with
  | nil => simp [splitFirstChar]
  | cons a as ih =>
    have ha : a ≠ c := fun he => h (he ▸ List.mem_cons_self a as)
    have has : c ∉ as := fun hm => h (List.mem_cons_of_mem a hm)
    unfold splitFirstChar
    simp [ha, ih has]

theorem splitChar_joinChar (c : Char) (pieces : List (List Char))
    (hne : pieces ≠ []) (hmem : ∀ p ∈ pieces, c ∉ p) :
    splitChar c (joinChar c pieces) = pieces := by
  induction pieces with
  | nil => exact absurd rfl hne
  | cons p ps ih =>
    cases ps with
    | nil =>
      simp only [joinChar]
      exact splitChar_not_mem c p (hmem p (List.mem_cons_self p []))
    | cons q qs =>
      have hp : c ∉ p := hmem p (List.mem_cons_self p (q :: qs))
      have hrest : ∀ r ∈ q :: qs, c ∉ r := fun r hr => hmem r (List.mem_cons_of_mem p hr)
      simp only [joinChar]
      rw [splitChar_append_not_mem c p (joinChar c (q :: qs)) hp]
      rw [ih (by simp) hrest]

theorem splitextData_append (l : List Char) :
    (splitextData l).1 ++ (splitextData l).2 = l := by
  unfold splitextData
  dsimp only
  repeat' split
  all_goals simp

theorem splitext_append (p : String) :
    (splitext p).1.data ++ (splitext p).2.data = p.data := by
  unfold splitext
  exact splitextData_append p.data

/-! Part: claims about the registry lookup -/

theorem normalize_ext_of_ipynb_suffix (ext : String)
    (h : pyEndsWith ext (".ipynb") = true) : normalize_ext ext = (".ipynb") := by
  have hsuf : (".ipynb").data <:+ ext.data := List.isSuffixOf_iff_suffix.mp h
  obtain ⟨t, ht⟩ := hsuf
  have hdot : '.' ∉ ['i', 'p', 'y', 'n', 'b'] := by decide
  have hdata : ext.data = t ++ '.' :: ['i', 'p', 'y', 'n', 'b'] := ht.symm
  unfold normalize_ext
  rw [hdata, getLastD_splitChar_append ('.') ['i', 'p', 'y', 'n', 'b'] hdot t]
  rfl

/-- Claim C10: for every path ending in `.ipynb` and every dialect-name
argument, `get_format_implementation` returns `None` rather than a
descriptor or an error; neither the unknown-extension nor the ambiguity
error can ever be raised for `.ipynb`. -/
theorem c10_ipynb_lookup_returns_none (ext : String) (format_name : Option String)
    (h : pyEndsWith ext (".ipynb") = true) :
    get_format_implementation ext format_name = Except.ok none := by
  unfold get_format_implementation
  rw [normalize_ext_of_ipynb_suffix ext h]
  rfl

/-- Witness for claim C10 at the concrete path `nb.ipynb` with a registered
dialect name supplied. -/
theorem c10_ipynb_lookup_returns_none_witness :
    get_format_implementation ("nb.ipynb") (some ("percent")) = Except.ok none :=
  c10_ipynb_lookup_returns_none ("nb.ipynb") (some ("percent")) (by decide)

theorem get_format_implementation_go_none_first (ext' : String)
    (f : NotebookFormatDescription) (fs : List NotebookFormatDescription) :
    ∀ (l : List NotebookFormatDescription) (acc : List String),
      l.filter (fun d => d.extension == ext') = f :: fs →
      get_format_implementation_go ext' none l acc = Except.ok (some f) := by
  intro l
  induction l with
  | nil => intro acc h; simp [List.filter_nil] at h
  | cons d rest ih =>
    intro acc h
    by_cases hd : (d.extension == ext') = true
    · simp only [List.filter_cons, hd, if_true] at h
      have hdf : d = f := (List.cons_eq_cons.mp h).1
      unfold get_format_implementation_go
      rw [if_pos hd]
      simp [pyOptFalsy, hdf]
    · simp only [List.filter_cons, hd, Bool.false_eq_true, if_false] at h
      unfold get_format_implementation_go
      rw [if_neg hd]
      exact ih acc h

/-- Claim C1 (amended): when no dialect name is supplied,
`get_format_implementation` never signals the ambiguity error for an
extension with several registered dialects — it returns the first
registered descriptor for that (normalized) extension; the
candidate-enumerating error is reserved for a supplied dialect name that
matches no descriptor. -/
theorem c1_no_name_returns_first_descriptor (ext : String)
    (f : NotebookFormatDescription) (fs : List NotebookFormatDescription)
    (hfilter : JUPYTEXT_FORMATS.filter
      (fun d => d.extension == normalize_ext ext) = f :: fs)
    (hipynb : pyEndsWith (normalize_ext ext) (".ipynb") = false) :
    get_format_implementation ext none = Except.ok (some f) := by
  unfold get_format_implementation
  simp only [hipynb, Bool.false_eq_true, if_false]
  exact get_format_implementation_go_none_first (normalize_ext ext) f fs
    JUPYTEXT_FORMATS [] hfilter

/-- Witness for claim C1 (amended) at the extension `.py`, which has four
registered dialects: the lookup returns the `light` descriptor. -/
theorem c1_no_name_returns_first_descriptor_witness :
    get_format_implementation (".py") none =
      Except.ok (some (light_description ((".py"), ("#")))) :=
  c1_no_name_returns_first_descriptor (".py") (light_description ((".py"), ("#")))
    [percent_description ((".py"), ("#")), hydrogen_description ((".py"), ("#")),
      sphinx_description] (by decide) (by decide)

/-- Counterexample to claim C1 as stated: the registry has four candidate
dialects for `.py`, yet the lookup with no dialect name returns a single
descriptor (the first one, `light`) instead of signalling an ambiguity
error. -/
theorem c1_counterexample :
    (dialect_names (".py")).length = 4 ∧
      get_format_implementation (".py") none =
        Except.ok (some (light_description ((".py"), ("#")))) := by
  constructor
  · decide
  · decide

/-! Part: claims about the version guard -/

/-- Claim C3: the claim says a notebook with an entirely empty metadata
mapping is treated as freshly authored (version = current) and accepted;
the code instead reaches the chained comparison with a `None` version and
raises `TypeError` (the replacement by the current version is guarded by
the truthiness of the metadata mapping, which an empty mapping fails).
This theorem evaluates the code at the failing input. -/
theorem c3_empty_metadata_raises_type_error :
    metadata_nonempty Metadata.empty = false ∧
      check_file_version true Metadata.empty ("test.py") ("test.ipynb") =
        Except.error PyError.typeErrorNoneCmp := by
  constructor
  · decide
  · decide

/-! Part: claims about the formats-list updater -/

theorem update_formats_go_found (ext : String) (format_name : Option String) :
    ∀ l : List (String × Option String),
      update_formats_go ext format_name l true = l.filter (fun p => !(p.1 == ext)) := by
  intro l
  induction l with
  | nil => rfl
  | cons p rest ih =>
    obtain ⟨pe, pn⟩ := p
    unfold update_formats_go
    by_cases hp : pe = ext
    · simp [hp, ih]
    · simp [hp, ih]

theorem update_formats_go_not_found (ext : String) (format_name : Option String) :
    ∀ (l : List (String × Option String)) (b : Bool),
      (∀ p ∈ l, p.1 ≠ ext) → update_formats_go ext format_name l b = l := by
  intro l
  induction l with
  | nil => intro b _; rfl
  | cons p rest ih =>
    intro b h
    obtain ⟨pe, pn⟩ := p
    have hpe : pe ≠ ext := h (pe, pn) (List.mem_cons_self _ _)
    have hrest : ∀ q ∈ rest, q.1 ≠ ext := fun q hq => h q (List.mem_cons_of_mem _ hq)
    unfold update_formats_go
    simp [hpe, ih b hrest]

/-- Claim C5 (amended): the formats-list updater replaces the first entry
whose extension matches, dropping any later entry of the same extension,
and when no entry of the list has that extension it returns the list
unchanged — it never appends a new entry. -/
theorem c5_update_formats_replaces_first_never_appends
    (F : List (String × Option String)) (e : String) (d : Option String) :
    ((∀ p ∈ F, p.1 ≠ e) → update_formats F e d = F) ∧
      (∀ (F₁ F₂ : List (String × Option String)) (d₀ : Option String),
        F = F₁ ++ (e, d₀) :: F₂ → (∀ p ∈ F₁, p.1 ≠ e) →
        update_formats F e d = F₁ ++ (e, d) :: F₂.filter (fun p => !(p.1 == e))) := by
  constructor
  · intro h
    exact update_formats_go_not_found e d F false h
  · intro F₁ F₂ d₀ hF h1
    subst hF
    unfold update_formats
    induction F₁ with
    | nil =>
      unfold update_formats_go
      simp [update_formats_go_found e d F₂]
    | cons p rest ih =>
      obtain ⟨pe, pn⟩ := p
      have hpe : pe ≠ e := h1 (pe, pn) (List.mem_cons_self _ _)
      have hrest : ∀ q ∈ rest, q.1 ≠ e := fun q hq => h1 q (List.mem_cons_of_mem _ hq)
      unfold update_formats_go
      simp [hpe, ih hrest]

/-- Witness for claim C5 (amended): a replacement that drops the later
duplicate, and an absent extension leaving the list unchanged (nothing
appended). -/
theorem c5_update_formats_replaces_first_never_appends_witness :
    update_formats [((".md"), (none : Option String))] (".py") (some ("percent")) =
        [((".md"), none)] ∧
      update_formats [((".py"), some ("light")), ((".md"), none), ((".py"), some ("sphinx"))]
          (".py") (some ("percent")) =
        [((".py"), some ("percent")), ((".md"), none)] := by
  constructor
  · exact (c5_update_formats_replaces_first_never_appends
      [((".md"), none)] (".py") (some ("percent"))).1 (by decide)
  · exact ((c5_update_formats_replaces_first_never_appends
      [((".py"), some ("light")), ((".md"), none), ((".py"), some ("sphinx"))]
      (".py") (some ("percent"))).2 [] [((".md"), none), ((".py"), some ("sphinx"))]
      (some ("light")) rfl (by decide)).trans (by decide)

/-- Counterexample to claim C5 as stated: with no entry for `.py` in the
list, the updater returns the list unchanged instead of appending
`(".py", "percent")`. -/
theorem c5_counterexample :
    update_formats [((".md"), (none : Option String))] (".py") (some ("percent")) =
        [((".md"), none)] ∧
      ((".py"), some ("percent")) ∉
        update_formats [((".md"), (none : Option String))] (".py") (some ("percent")) := by
  constructor
  · decide
  · decide

/-- Claim C2 (amended): the version guard compares version strings with
Python string comparison — lexicographic on code points, not numeric per
component.  With guarding enabled, distinct paths, a non-container source
extension and a recorded non-empty version `v` resolving to the descriptor
`fmt`, the guard accepts exactly when `v` equals the current version or
lies between the effective minimum readable version and the current
version in lexicographic order.  On single-digit components (such as the
registry's own `1.1`/`1.3` bounds compared with `1.0` … `1.4`) this
coincides with numeric comparison. -/
theorem c2_guard_accepts_lexicographic_range (nb : Metadata) (src out : String)
    (fmt : NotebookFormatDescription) (fn : Option String) (v : String)
    (hext : pyEndsWith (splitext src).2 (".ipynb") = false)
    (hfn : format_name_for_ext nb (splitext src).2 none true = Except.ok fn)
    (hfmt : get_format_implementation (splitext src).2 fn = Except.ok (some fmt))
    (hv : recorded_format_version nb = some v)
    (hv0 : v ≠ (""))
    (hpath : src ≠ out) :
    check_file_version true nb src out = Except.ok () ↔
      (v = fmt.current_version_number ∨
        (pyStrLe (py_or_default fmt.min_readable_version_number
            fmt.current_version_number) v = true ∧
          pyStrLe v fmt.current_version_number = true)) := by
  unfold check_file_version
  simp only [hext, hfn, hfmt, hv, Bool.false_eq_true, if_false, Bool.and_eq_true]
  have hfalsy : pyOptFalsy (some v) = false := by
    simp [pyOptFalsy, hv0]
  have hout : (src == out) = false := by
    simp [hpath]
  simp only [hfalsy, Bool.false_eq_true, and_false, if_false, Bool.true_eq_false]
  by_cases hvc : v = fmt.current_version_number
  · simp [hvc]
  · have hbeq : (some v == some fmt.current_version_number) = false := by
      simp [hvc]
    simp only [hbeq, Bool.false_eq_true, if_false]
    by_cases hrange : pyStrLe (py_or_default fmt.min_readable_version_number
        fmt.current_version_number) v = true ∧ pyStrLe v fmt.current_version_number = true
    · simp [hvc, hrange.1, hrange.2]
    · rw [if_neg hrange, if_neg (by simp [hout])]
      simp [hvc, hrange]

/-- Witness for claim C2 (amended): the `light` descriptor for `.py`
(current `1.3`, minimum `1.1`) accepts the recorded version `1.2` under
the lexicographic range. -/
theorem c2_guard_accepts_lexicographic_range_witness :
    check_file_version true (nb_with_version ("1.2")) ("test.py") ("test.ipynb") =
      Except.ok () :=
  (c2_guard_accepts_lexicographic_range (nb_with_version ("1.2")) ("test.py")
      ("test.ipynb") (light_description ((".py"), ("#"))) (some ("light")) ("1.2")
      (by decide) (by decide) (by decide) (by decide) (by decide) (by decide)).mpr
    (Or.inr (by decide))

/-- Counterexample to claim C2 as stated: for the `light` descriptor
(current `1.3`, minimum `1.1`), the recorded version `1.10` is numerically
larger than the current version, so the claim requires rejection; the
code's lexicographic comparison accepts it. -/
theorem c2_counterexample :
    check_file_version true (nb_with_version ("1.10")) ("test.py") ("test.ipynb") =
        Except.ok () ∧
      version_as_pair ("1.10") = some (1, 10) ∧
      version_as_pair ("1.3") = some (1, 3) ∧
      numeric_version_le ("1.10") ("1.3") = false := by
  refine ⟨by decide, by decide, by decide, by decide⟩

/-! Part: claims about the format resolver -/

/-- Claim C7: when the document's own text-representation block records
exactly the queried extension together with a (non-empty) dialect name,
`format_name_for_ext` returns that name, regardless of the document's
formats list, the supplied default formats list, and the explicit-default
flag — self-declaration wins unconditionally. -/
theorem c7_self_declaration_wins (metadata : Metadata) (j : JupytextMeta)
    (t : TextRep) (ext d1 : String) (cm : Option String) (explicit : Bool)
    (hj : metadata.jupytext = some j)
    (ht : j.text_representation = some t)
    (hext : t.extension = some ext)
    (hname : t.format_name = some d1)
    (hd : d1 ≠ ("")) :
    format_name_for_ext metadata ext cm explicit = Except.ok (some d1) := by
  unfold format_name_for_ext
  simp only [hj, ht]
  have h1 : text_rep_nonempty t = true := by
    simp [text_rep_nonempty, hext]
  have h2 : (t.extension == some ext) = true := by
    simp [hext]
  have h3 : pyOptFalsy t.format_name = false := by
    simp [pyOptFalsy, hname, hd]
  have h4 : pyOptFalsy (some d1) = false := by
    simp [pyOptFalsy, hd]
  simp [h1, h2, h3, h4, hname]

/-- Witness for claim C7: a document self-declaring `light` for `.py`
resolves to `light` even though its formats list declares `percent` for
`.py` and the supplied default formats list declares `hydrogen`. -/
theorem c7_self_declaration_wins_witness :
    format_name_for_ext self_declared_metadata (".py") (some ("py:hydrogen")) true =
      Except.ok (some ("light")) :=
  c7_self_declaration_wins self_declared_metadata
    { JupytextMeta.empty with
      text_representation := some ⟨some (".py"), some ("light"), none⟩,
      formats := some ("py:percent") }
    ⟨some (".py"), some ("light"), none⟩ (".py") ("light") (some ("py:hydrogen"))
    true (by decide) (by decide) (by decide) (by decide) (by decide)

/-! Part: claims about the dialect sniffer -/

theorem guess_format_scan_counts (comment ext : String) :
    ∀ (lines : List (String × Bool)) (t : SnifferTally),
      guess_format_scan comment ext lines t =
        ⟨t.double_percent_count +
            ((lines.filter (fun p => !p.2)).countP
              (fun p => double_percent_marker comment p.1)),
          t.magic_command_count +
            ((lines.filter (fun p => !p.2)).countP (fun p => magic_line p.1)),
          t.twenty_hash_count +
            ((lines.filter (fun p => !p.2)).countP
              (fun p => twenty_hash_marker ext p.1))⟩ := by
  intro lines
  induction lines with
  | nil => intro t; simp [guess_format_scan]
  | cons p rest ih =>
    intro t
    obtain ⟨line, quoted⟩ := p
    unfold guess_format_scan
    cases quoted with
    | true => simp [ih]
    | false =>
      by_cases h1 : double_percent_marker comment line = true <;>
        by_cases h2 : magic_line line = true <;>
          by_cases h3 : twenty_hash_marker ext line = true <;>
            simp [h1, h2, h3, ih, List.countP_cons, SnifferTally.mk.injEq] <;>
              omega

/-- Claim C6: for a script extension whose header metadata does not force
an explicit format, the sniffer decides in order — at least one
double-percent marker line (outside string literals) yields `hydrogen`
when a magic-command line was also seen and `percent` otherwise; else at
least two twenty-hash section-break lines yield `sphinx`; else the
registry's default dialect name for the extension. -/
theorem c6_sniffer_decision_order (metadata : Metadata)
    (lines : List (String × Bool)) (ext comment : String)
    (hforce : metadata_forces_format metadata = false)
    (hcomment : script_comment ext = some comment) :
    guess_format metadata lines ext =
      (if 1 ≤ (lines.filter (fun p => !p.2)).countP
          (fun p => double_percent_marker comment p.1) then
        (if 1 ≤ (lines.filter (fun p => !p.2)).countP (fun p => magic_line p.1) then
          Except.ok (some ("hydrogen"))
        else Except.ok (some ("percent")))
      else if 2 ≤ (lines.filter (fun p => !p.2)).countP
          (fun p => twenty_hash_marker ext p.1) then
        Except.ok (some ("sphinx"))
      else default_format_name ext) := by
  unfold guess_format
  simp only [hforce, hcomment, Bool.false_eq_true, if_false]
  rw [guess_format_scan_counts comment ext lines ⟨0, 0, 0⟩]
  simp only [Nat.zero_add, Nat.one_le_iff_ne_zero]

/-- Witness for claim C6: one double-percent marker line together with one
magic-command line sniffs as `hydrogen`; the registry default for `.py`
(the `light` dialect) is returned when no marker occurs. -/
theorem c6_sniffer_decision_order_witness :
    guess_format Metadata.empty
        [(("# %%"), false), (("%matplotlib inline"), false)] (".py") =
      Except.ok (some ("hydrogen")) := by
  rw [c6_sniffer_decision_order Metadata.empty
    [(("# %%"), false), (("%matplotlib inline"), false)] (".py") ("#")
    (by decide) (by decide)]
  decide

/-! Part: claims about the structured-record validator -/

theorem validate_format_keys_error_of_bad (d : FormatRecord)
    (h : d.any bad_option_pair = true) :
    ∃ e, validate_format_keys d = Except.error e := by
  induction d with
  | nil => simp at h
  | cons p rest ih =>
    obtain ⟨k, v⟩ := p
    rw [List.any_cons] at h
    unfold validate_format_keys
    by_cases hk : k ∈ _VALID_FORMAT_OPTIONS
    · by_cases hb : k ∈ _BINARY_FORMAT_OPTIONS
      · cases v with
        | vbool b =>
          have hpk : bad_option_pair (k, PyVal.vbool b) = false := by
            simp [bad_option_pair, hk, hb]
          rw [hpk, Bool.false_or] at h
          simpa [hk, hb] using ih h
        | vstr s => exact ⟨PyError.formatOptionNotBool k, by simp [hk, hb]⟩
        | vint n => exact ⟨PyError.formatOptionNotBool k, by simp [hk, hb]⟩
      · cases v with
        | vstr s =>
          have hpk : bad_option_pair (k, PyVal.vstr s) = false := by
            simp [bad_option_pair, hk, hb]
          rw [hpk, Bool.false_or] at h
          simpa [hk, hb] using ih h
        | vbool b => exact ⟨PyError.formatOptionNotString k, by simp [hk, hb]⟩
        | vint n => exact ⟨PyError.formatOptionNotString k, by simp [hk, hb]⟩
    · exact ⟨PyError.unknownFormatOption k, by simp [hk]⟩

theorem validate_one_format_error_of_bad (d : FormatRecord)
    (h : d.any bad_option_pair = true) :
    ∃ e, validate_one_format d = Except.error e := by
  obtain ⟨e, he⟩ := validate_format_keys_error_of_bad d h
  exact ⟨e, by unfold validate_one_format; rw [he]⟩

theorem validate_all_formats_error_of_mem (recs : List FormatRecord)
    (d : FormatRecord) (hmem : d ∈ recs) (h : d.any bad_option_pair = true) :
    ∃ e, validate_all_formats recs = Except.error e := by
  induction recs with
  | nil => cases hmem
  | cons r rest ih =>
    unfold validate_all_formats
    cases hr : validate_one_format r with
    | error e => exact ⟨e, rfl⟩
    | ok u =>
      cases List.mem_cons.mp hmem with
      | inl hd =>
        obtain ⟨e, he⟩ := validate_one_format_error_of_bad r (hd ▸ h)
        rw [he] at hr
        cases hr
      | inr ht =>
        obtain ⟨e, he⟩ := ih ht
        exact ⟨e, by rw [he]⟩

/-- Claim C9: structured-record validation is all-or-nothing — whenever the
input of `long_form_multiple_formats` contains a record with a key outside
the allowed option set, a binary option holding a non-bool, or another
option holding a non-string, the whole call fails with a
`JupytextFormatError` (the spec's `InvalidFormatOption`) and no partial
list or record is returned. -/
theorem c9_validation_all_or_nothing (l : List FmtEntry) (d : FormatRecord)
    (hmem : FmtEntry.edict d ∈ l) (hbad : d.any bad_option_pair = true) :
    ∃ e, long_form_multiple_formats (FormatsInput.flist l) = Except.error e := by
  unfold long_form_multiple_formats
  have hne : l.isEmpty = false := by
    cases l with
    | nil => cases hmem
    | cons a rest => rfl
  simp only [hne, Bool.false_eq_true, if_false]
  have hmem2 : d ∈ l.map long_form_one_format := by
    have := List.mem_map_of_mem long_form_one_format hmem
    simpa [long_form_one_format] using this
  obtain ⟨e, he⟩ :=
    validate_all_formats_error_of_mem (l.map long_form_one_format) d hmem2 hbad
  exact ⟨e, by rw [he]⟩

/-- Witness for claim C9: a list holding one valid compact string and one
record with a mistyped binary option fails as a whole. -/
theorem c9_validation_all_or_nothing_witness :
    ∃ e, long_form_multiple_formats (FormatsInput.flist
        [FmtEntry.estr ("md"),
          FmtEntry.edict [(("extension"), PyVal.vstr (".py")),
            (("comment_magics"), PyVal.vstr ("yes"))]]) = Except.error e :=
  c9_validation_all_or_nothing
    [FmtEntry.estr ("md"),
      FmtEntry.edict [(("extension"), PyVal.vstr (".py")),
        (("comment_magics"), PyVal.vstr ("yes"))]]
    [(("extension"), PyVal.vstr (".py")), (("comment_magics"), PyVal.vstr ("yes"))]
    (by decide) (by decide)

/-! Part: claims about the metadata migrator -/

theorem flatten_flatten (v : Option FilterValue) :
    flatten_filter_value (flatten_filter_value v) = flatten_filter_value v := by
  match v with
  | none => rfl
  | some (FilterValue.compact s) => rfl
  | some (FilterValue.record a e) => rfl

theorem mb_metadata_filter (m : Metadata) :
    (migrated_block m).metadata_filter = none := by
  unfold migrated_block
  dsimp only
  repeat' split
  all_goals rfl

theorem mb_nb_flat (m : Metadata) :
    flatten_filter_value (migrated_block m).notebook_metadata_filter =
      (migrated_block m).notebook_metadata_filter := by
  unfold migrated_block
  dsimp only
  exact flatten_flatten _

theorem mb_cf_flat (m : Metadata) :
    flatten_filter_value (migrated_block m).cell_metadata_filter =
      (migrated_block m).cell_metadata_filter := by
  unfold migrated_block
  dsimp only
  exact flatten_flatten _

theorem mb_of_rearranged_none (li : Option LangInfo) :
    migrated_block
        { nbrmd_formats := none, nbrmd_format_version := none,
          jupytext_formats := none, jupytext_format_version := none,
          main_language := none, encoding := none, executable := none,
          language_info := li, jupytext := none } = JupytextMeta.empty := rfl

theorem mb_of_rearranged_some (li : Option LangInfo) (b : JupytextMeta)
    (hmf : b.metadata_filter = none)
    (hnb : flatten_filter_value b.notebook_metadata_filter = b.notebook_metadata_filter)
    (hcf : flatten_filter_value b.cell_metadata_filter = b.cell_metadata_filter) :
    migrated_block
        { nbrmd_formats := none, nbrmd_format_version := none,
          jupytext_formats := none, jupytext_format_version := none,
          main_language := none, encoding := none, executable := none,
          language_info := li, jupytext := some b } = b := by
  unfold migrated_block
  dsimp only
  rw [hmf]
  dsimp only
  rw [hnb, hcf, ← hmf]

/-- Claim C8: the metadata migrator is idempotent — for every metadata
mapping, applying `rearrange_jupytext_metadata` twice yields the same
mapping as applying it once. -/
theorem c8_migrator_idempotent (m : Metadata) :
    rearrange_jupytext_metadata (rearrange_jupytext_metadata m) =
      rearrange_jupytext_metadata m := by
  have hmf := mb_metadata_filter m
  have hnb := mb_nb_flat m
  have hcf := mb_cf_flat m
  by_cases hb : migrated_block m = JupytextMeta.empty
  · have hre : rearrange_jupytext_metadata m =
        { nbrmd_formats := none, nbrmd_format_version := none,
          jupytext_formats := none, jupytext_format_version := none,
          main_language := none, encoding := none, executable := none,
          language_info := m.language_info, jupytext := none } := by
      unfold rearrange_jupytext_metadata
      dsimp only
      rw [hb]
      rfl
    rw [hre]
    unfold rearrange_jupytext_metadata
    dsimp only
    rw [mb_of_rearranged_none m.language_info, if_pos rfl]
  · have hre : rearrange_jupytext_metadata m =
        { nbrmd_formats := none, nbrmd_format_version := none,
          jupytext_formats := none, jupytext_format_version := none,
          main_language := none, encoding := none, executable := none,
          language_info := m.language_info,
          jupytext := some (migrated_block m) } := by
      unfold rearrange_jupytext_metadata
      dsimp only
      rw [if_neg hb]
    rw [hre]
    generalize hgen : migrated_block m = b at hmf hnb hcf hb
    unfold rearrange_jupytext_metadata
    dsimp only
    rw [mb_of_rearranged_some m.language_info b hmf hnb hcf]
    rw [if_neg hb]

/-! Part: claims about the specifier round-trip -/

theorem legit_shape (e : String) (h : extension_is_legit e = true) :
    ext_shape_ok e = true := by
  unfold extension_is_legit at h
  rw [Bool.or_eq_true] at h
  cases h with
  | inl hmem =>
    rw [decide_eq_true_eq] at hmem
    have hconc : legitimate_extensions =
        [(".ipynb"), (".md"), (".Rmd"), (".r"), (".R"), (".py"), (".auto")] := by decide
    rw [hconc] at hmem
    simp only [List.mem_cons, List.not_mem_nil, or_false] at hmem
    rcases hmem with h1 | h1 | h1 | h1 | h1 | h1 | h1 <;> (rw [h1]; decide)
  | inr hpre =>
    cases hr : rfindIdx ('.') e.data with
    | none => rw [hr] at hpre; cases hpre
    | some i =>
      rw [hr] at hpre
      rw [Bool.and_eq_true, Bool.and_eq_true, decide_eq_true_eq, decide_eq_true_eq,
        decide_eq_true_eq] at hpre
      obtain ⟨⟨hi, hsh⟩, hpm⟩ := hpre
      have hconcat := splitext_append e
      have hconc : legitimate_extensions =
          [(".ipynb"), (".md"), (".Rmd"), (".r"), (".R"), (".py"), (".auto")] := by decide
      have hpconc : EXTENSION_PREFIXES =
          [(".lgt"), (".spx"), (".pct"), (".hyd"), (".nb")] := by decide
      rw [hconc] at hsh
      rw [hpconc] at hpm
      simp only [List.mem_cons, List.not_mem_nil, or_false] at hsh hpm
      unfold ext_shape_ok
      rcases hpm with h1 | h1 | h1 | h1 | h1 <;>
        rcases hsh with h2 | h2 | h2 | h2 | h2 | h2 | h2 <;>
          (rw [h1, h2] at hconcat; rw [← hconcat]; decide)

theorem of_ext_shape (e : String) (h : ext_shape_ok e = true) :
    ∃ c cs, e.data = '.' :: c :: cs ∧ (c == '.') = false ∧
      (',' ∉ e.data) ∧ (':' ∉ e.data) := by
  unfold ext_shape_ok at h
  rcases hdata : e.data with _ | ⟨c0, _ | ⟨c1, cs⟩⟩ <;> rw [hdata] at h
  · cases h
  · cases h
  · rw [Bool.and_eq_true, Bool.and_eq_true, Bool.and_eq_true] at h
    obtain ⟨⟨⟨h0, h1⟩, h2⟩, h3⟩ := h
    rw [beq_iff_eq] at h0
    subst h0
    rw [Bool.not_eq_true', decide_eq_false_iff_not] at h2 h3
    exact ⟨c1, cs, rfl, by simpa using h1, h2, h3⟩

theorem all_format_names_good :
    ∀ s ∈ all_format_names, s ≠ ("") ∧ (',' ∉ s.data) := by decide

theorem dialect_names_sub (s x : String) (h : s ∈ dialect_names x) :
    s ∈ all_format_names := by
  unfold dialect_names at h
  unfold all_format_names
  obtain ⟨f, hf, hn⟩ := List.mem_map.mp h
  exact List.mem_map.mpr ⟨f, List.mem_of_mem_filter hf, hn⟩

theorem pyStartsWith_dot_cons (c1 : Char) (cs : List Char) :
    pyStartsWith (String.mk ('.' :: c1 :: cs)) (".") = true := by
  simp [pyStartsWith, List.isPrefixOf]

theorem pyStartsWith_not_dot (c1 : Char) (cs : List Char) (h : (c1 == '.') = false) :
    pyStartsWith (String.mk (c1 :: cs)) (".") = false := by
  simp [pyStartsWith, List.isPrefixOf]
  intro he
  rw [he] at h
  simp at h

theorem render_parse_one (e : String) (n : Option String)
    (hval : valid_entry e n = true)
    (hmark : n ≠ some ("markdown") ∧ n ≠ some ("rmarkdown")) :
    parse_one_format (one_format_as_string e n) = Except.ok (e, n) ∧
      (',' ∉ (one_format_as_string e n).data) ∧
      (one_format_as_string e n).data ≠ [] := by
  unfold valid_entry at hval
  rw [Bool.and_eq_true] at hval
  obtain ⟨hlegit, hname⟩ := hval
  obtain ⟨c1, cs, hdata, hc1, hcomma, hcolon⟩ := of_ext_shape e (legit_shape e hlegit)
  have hcommatail : ',' ∉ c1 :: cs := by
    rw [hdata] at hcomma
    exact fun hm => hcomma (List.mem_cons_of_mem _ hm)
  have hcolontail : ':' ∉ c1 :: cs := by
    rw [hdata] at hcolon
    exact fun hm => hcolon (List.mem_cons_of_mem _ hm)
  have hsw : pyStartsWith e (".") = true := by
    unfold pyStartsWith
    rw [hdata]
    simp [List.isPrefixOf]
  have hdrop : e.data.drop 1 = c1 :: cs := by rw [hdata]; rfl
  have hmke : pyAddDot (String.mk (c1 :: cs)) = e := by
    unfold pyAddDot
    show String.mk ('.' :: c1 :: cs) = e
    rw [← hdata, string_mk_data]
  cases n with
  | none =>
    have hrender : one_format_as_string e none = String.mk (c1 :: cs) := by
      unfold one_format_as_string
      rw [hsw]
      simp [hdrop]
    rw [hrender]
    refine ⟨?_, hcommatail, by simp⟩
    unfold parse_one_format
    rw [splitFirstChar_not_mem (':') (c1 :: cs) hcolontail]
    try dsimp only
    rw [pyStartsWith_not_dot c1 cs hc1]
    simp only [Bool.false_eq_true, if_false]
    rw [hmke, hlegit]
    rfl
  | some s =>
    rw [decide_eq_true_eq] at hname
    have hgood := all_format_names_good s (dialect_names_sub s (normalize_ext e) hname)
    have hs0 : s ≠ ("") := hgood.1
    have hscomma : ',' ∉ s.data := hgood.2
    have hsm : s ∉ [("markdown"), ("rmarkdown")] := by
      intro hm
      rcases List.mem_cons.mp hm with h1 | h1
      · exact hmark.1 (by rw [h1])
      · rcases List.mem_cons.mp h1 with h2 | h2
        · exact hmark.2 (by rw [h2])
        · cases h2
    have hrender : one_format_as_string e (some s) =
        String.mk ((c1 :: cs) ++ ':' :: s.data) := by
      unfold one_format_as_string
      rw [hsw]
      try dsimp only
      rw [if_pos (And.intro hs0 hsm)]
      simp [hdrop]
    rw [hrender]
    refine ⟨?_, ?_, by simp⟩
    · unfold parse_one_format
      rw [show (String.mk ((c1 :: cs) ++ ':' :: s.data)).data =
        (c1 :: cs) ++ ':' :: s.data from rfl]
      rw [splitFirstChar_append (':') (c1 :: cs) s.data hcolontail]
      try dsimp only
      rw [string_mk_data]
      rw [pyStartsWith_not_dot c1 cs hc1]
      simp only [Bool.false_eq_true, if_false]
      rw [hmke, hlegit]
      rfl
    · show ',' ∉ (c1 :: cs) ++ ':' :: s.data
      intro hm
      rcases List.mem_append.mp hm with h1 | h1
      · exact hcommatail h1
      · rcases List.mem_cons.mp h1 with h2 | h2
        · cases h2
        · exact hscomma h2

theorem parse_formats_list_map (L : List (String × Option String))
    (h : ∀ p ∈ L, parse_one_format (one_format_as_string p.1 p.2) = Except.ok p) :
    parse_formats_list (L.map (fun p => one_format_as_string p.1 p.2)) =
      Except.ok L := by
  induction L with
  | nil => rfl
  | cons p rest ih =>
    rw [List.map_cons]
    unfold parse_formats_list
    rw [h p (List.mem_cons_self _ _)]
    rw [ih (fun q hq => h q (List.mem_cons_of_mem _ hq))]

/-- Claim C4 (amended): parsing the compact rendering of a valid
FormatsList gives back the same list, provided no entry carries one of the
markup dialect names `markdown`/`rmarkdown` — those names are never
rendered as a suffix, so they parse back as an absent dialect name. -/
theorem c4_round_trip_no_markup_names (L : List (String × Option String))
    (hval : ∀ p ∈ L, valid_entry p.1 p.2 = true)
    (hmark : ∀ p ∈ L, p.2 ≠ some ("markdown") ∧ p.2 ≠ some ("rmarkdown")) :
    parse_formats (some (formats_as_string L)) = Except.ok L := by
  have hentry : ∀ p ∈ L, parse_one_format (one_format_as_string p.1 p.2) =
      Except.ok (p.1, p.2) ∧ (',' ∉ (one_format_as_string p.1 p.2).data) ∧
      (one_format_as_string p.1 p.2).data ≠ [] :=
    fun p hp => render_parse_one p.1 p.2 (hval p hp) (hmark p hp)
  cases L with
  | nil => rfl
  | cons p rest =>
    have hpieces_ne : ((p :: rest).map
        (fun q => (one_format_as_string q.1 q.2).data)) ≠ [] := by simp
    have hpmem : ∀ x ∈ (p :: rest).map
        (fun q => (one_format_as_string q.1 q.2).data), ',' ∉ x := by
      intro x hx
      obtain ⟨q, hq, hxq⟩ := List.mem_map.mp hx
      rw [← hxq]
      exact (hentry q hq).2.1
    have hjoin_ne : joinChar (',') ((p :: rest).map
        (fun q => (one_format_as_string q.1 q.2).data)) ≠ [] := by
      cases rest with
      | nil =>
        simp only [List.map_cons, List.map_nil, joinChar]
        exact (hentry p (List.mem_cons_self _ _)).2.2
      | cons q qs =>
        simp only [List.map_cons, joinChar]
        simp
    have hdata : (formats_as_string (p :: rest)).data =
        joinChar (',') ((p :: rest).map
          (fun q => (one_format_as_string q.1 q.2).data)) := rfl
    have hne : (formats_as_string (p :: rest) == ("")) = false := by
      rw [beq_eq_false_iff_ne]
      intro heq
      exact hjoin_ne (by rw [← hdata, heq])
    unfold parse_formats
    dsimp only
    rw [hne]
    simp only [Bool.false_eq_true, if_false]
    have hsplit : pySplit (',') (formats_as_string (p :: rest)) =
        ((p :: rest).map (fun q => (one_format_as_string q.1 q.2).data)).map
          String.mk := by
      unfold pySplit
      rw [hdata, splitChar_joinChar (',') _ hpieces_ne hpmem]
    rw [hsplit, List.map_map]
    have hmapeq : (p :: rest).map
        (String.mk ∘ fun q => (one_format_as_string q.1 q.2).data) =
        (p :: rest).map (fun q => one_format_as_string q.1 q.2) := by
      apply List.map_congr_left
      intro q hq
      exact string_mk_data _
    rw [hmapeq]
    exact parse_formats_list_map (p :: rest) (fun q hq => (hentry q hq).1)

/-- Witness for claim C4 (amended): a two-entry valid list round-trips. -/
theorem c4_round_trip_no_markup_names_witness :
    parse_formats (some (formats_as_string
        [((".md"), (none : Option String)), ((".py"), some ("percent"))])) =
      Except.ok [((".md"), none), ((".py"), some ("percent"))] :=
  c4_round_trip_no_markup_names
    [((".md"), none), ((".py"), some ("percent"))] (by decide) (by decide)

/-- Counterexample to claim C4 as stated: `markdown` is a registered
dialect name for `.md`, so `[(".md", "markdown")]` is a valid FormatsList,
yet its rendering `"md"` parses back with no dialect name. -/
theorem c4_counterexample :
    ("markdown") ∈ dialect_names (".md") ∧
      formats_as_string [((".md"), some ("markdown"))] = ("md") ∧
      parse_formats (some (formats_as_string [((".md"), some ("markdown"))])) =
        Except.ok [((".md"), (none : Option String))] ∧
      [((".md"), (none : Option String))] ≠ [((".md"), some ("markdown"))] := by
  refine ⟨by decide, by decide, by decide, by decide⟩
